import Mathlib

/- Shallow embedding of src/index.js: a Cloudflare Worker that relays file
updates to the GitHub contents API (handleUpdate) and receives GitHub
workflow-run webhooks (handleWebhook).

Platform primitives — crypto.subtle's HMAC-SHA-256, JSON.parse, fetch —
are modelled as explicit function parameters; the worker's own code is
embedded faithfully and the theorems quantify over the primitives'
behaviour.  Outbound network activity and JSON.parse activity are recorded
in an event trace so that claims of the form "no call is made" are
statable.  Machine strings are Lean String, byte values are Nat. -/

/-- JSON values as produced by JSON.parse.  JS numbers are modelled as
integers: no claim depends on non-integral numerics. -/
inductive Json where
  | null
  | bool (b : Bool)
  | num (n : Int)
  | str (s : String)
  | arr (elems : List Json)
  | obj (fields : List (String × Json))

/-- First-match lookup in an object's field list (JSON.parse output has
unique keys). -/
def Json.lookupField : List (String × Json) → String → Option Json
  | [], _ => none
  | (k, v) :: fs, key => if k = key then some v else Json.lookupField fs key

/-- JS property access obj.k: none models undefined (missing field, or the
receiver is not an object). -/
def Json.getField : Json → String → Option Json
  | .obj fs, k => Json.lookupField fs k
  | _, _ => none

/-- JS truthiness of a defined value. -/
def Json.jsTruthy : Json → Bool
  | .null => false
  | .bool b => b
  | .num n => n != 0
  | .str s => s != ""
  | .arr _ => true
  | .obj _ => true

/-- JS truthiness of a possibly-undefined value: undefined is falsy. -/
def jsTruthyOpt : Option Json → Bool
  | none => false
  | some j => j.jsTruthy

/-- JS strict equality of a possibly-undefined value against a string
literal: true exactly when the value is that string. -/
def strictEqStr (o : Option Json) (lit : String) : Bool :=
  match o with
  | some (.str s) => s == lit
  | _ => false

mutual
/-- JS string coercion String(v) of a JSON value. -/
def Json.jsToString : Json → String
  | .null => "null"
  | .bool true => "true"
  | .bool false => "false"
  | .num n => toString n
  | .str s => s
  | .arr xs => Json.jsToStringElems xs
  | .obj _ => "[object Object]"

/-- Array.prototype.toString: elements joined with commas, null rendered
empty. -/
def Json.jsToStringElems : List Json → String
  | [] => ""
  | [.null] => ""
  | [x] => Json.jsToString x
  | .null :: xs => "," ++ Json.jsToStringElems xs
  | x :: xs => Json.jsToString x ++ "," ++ Json.jsToStringElems xs
end

/-- JS string coercion of a possibly-undefined value. -/
def jsToStringOpt : Option Json → String
  | none => "undefined"
  | some j => j.jsToString

/-- Escaping of one character inside a JSON string literal (the cases that
occur in this development; JSON.stringify additionally escapes other
control characters, which no claim exercises). -/
def escapeChar (c : Char) : String :=
  if c = '"' then "\\\""
  else if c = '\\' then "\\\\"
  else if c = '\n' then "\\n"
  else String.mk [c]

/-- Escaping of a JSON string literal body. -/
def escapeJSON (s : String) : String :=
  String.join (s.data.map escapeChar)

/-- Comma-join of rendered pieces. -/
def joinComma : List String → String
  | [] => ""
  | [x] => x
  | x :: xs => x ++ "," ++ joinComma xs

mutual
/-- JSON.stringify (compact rendering; the source's only pretty-printed
stringify call is inside an error message no claim inspects). -/
def stringify : Json → String
  | .null => "null"
  | .bool true => "true"
  | .bool false => "false"
  | .num n => toString n
  | .str s => "\"" ++ escapeJSON s ++ "\""
  | .arr xs => "[" ++ joinComma (stringifyArr xs) ++ "]"
  | .obj fs => "\x7b" ++ joinComma (stringifyObj fs) ++ "\x7d"

/-- Renderings of array elements. -/
def stringifyArr : List Json → List String
  | [] => []
  | x :: xs => stringify x :: stringifyArr xs

/-- Renderings of object fields. -/
def stringifyObj : List (String × Json) → List String
  | [] => []
  | (k, v) :: fs => ("\"" ++ escapeJSON k ++ "\":" ++ stringify v) :: stringifyObj fs
end

/-- JS b.toString(16).padStart(2, "0") as applied to the digest bytes:
lowercase hexadecimal, left-padded to two characters. -/
def hexByte (b : Nat) : String :=
  let ds := Nat.toDigits 16 b
  String.mk (if ds.length < 2 then '0' :: ds else ds)

/-- Array.from(new Uint8Array(digest)).map(hexByte).join(""). -/
def bytesToHex (bs : List Nat) : String :=
  String.join (bs.map hexByte)

/-- Embedding of verifySignature(body, signature, secret) from
src/index.js.  The platform primitive crypto.subtle HMAC-SHA-256 is the
parameter hmac (secret and message to digest bytes).  The header value is
an Option String, none when the header is absent; JS falsiness of the
string also treats "" as absent. -/
def verifySignature (hmac : String → String → List Nat)
    (body : String) (signature : Option String) (secret : String) : Bool :=
  match signature with
  | none => false
  | some sg =>
    if sg = "" then false
    else ("sha256=" ++ bytesToHex (hmac secret body)) == sg

/-- The base64 alphabet used by btoa. -/
def b64Char (n : Nat) : Char :=
  "ABCDEFGHIJKLMNOPQRSTUVWXYZabcdefghijklmnopqrstuvwxyz0123456789+/".data.getD n 'A'

/-- Index of a character in the base64 alphabet. -/
def b64Sextet (c : Char) : Option Nat :=
  List.findIdx? (· == c)
    "ABCDEFGHIJKLMNOPQRSTUVWXYZabcdefghijklmnopqrstuvwxyz0123456789+/".data

/-- btoa: base64 rendering of a byte list, '=' padded. -/
def b64EncodeList : List Nat → List Char
  | [] => []
  | [a] => [b64Char (a / 4), b64Char ((a % 4) * 16), '=', '=']
  | [a, b] => [b64Char (a / 4), b64Char ((a % 4) * 16 + b / 16),
               b64Char ((b % 16) * 4), '=']
  | a :: b :: c :: rest =>
      b64Char (a / 4) :: b64Char ((a % 4) * 16 + b / 16) ::
      b64Char ((b % 16) * 4 + c / 64) :: b64Char (c % 64) :: b64EncodeList rest

/-- Standard base64 decoding, the inverse reading of b64EncodeList. -/
def b64DecodeList : List Char → Option (List Nat)
  | [] => some []
  | c1 :: c2 :: c3 :: c4 :: rest =>
    match b64Sextet c1, b64Sextet c2 with
    | some s1, some s2 =>
      if c3 = '=' then
        if c4 = '=' ∧ rest = [] then some [s1 * 4 + s2 / 16] else none
      else
        match b64Sextet c3 with
        | some s3 =>
          if c4 = '=' then
            if rest = [] then some [s1 * 4 + s2 / 16, (s2 % 16) * 16 + s3 / 4]
            else none
          else
            match b64Sextet c4 with
            | some s4 =>
              (b64DecodeList rest).map
                (fun l => (s1 * 4 + s2 / 16) :: ((s2 % 16) * 16 + s3 / 4) ::
                          ((s3 % 4) * 64 + s4) :: l)
            | none => none
        | none => none
    | _, _ => none
  | _ => none

/-- UTF-8 byte sequence of a code point (the bytes produced by
encodeURIComponent's percent escapes, which unescape turns into raw
bytes for btoa). -/
def utf8EncodeCode (n : Nat) : List Nat :=
  if n < 0x80 then [n]
  else if n < 0x800 then [0xC0 + n / 64, 0x80 + n % 64]
  else if n < 0x10000 then
    [0xE0 + n / 4096, 0x80 + (n / 64) % 64, 0x80 + n % 64]
  else
    [0xF0 + n / 262144, 0x80 + (n / 4096) % 64, 0x80 + (n / 64) % 64,
     0x80 + n % 64]

/-- UTF-8 bytes of a string. -/
def utf8Bytes (s : String) : List Nat :=
  (s.data.map fun c => utf8EncodeCode c.toNat).flatten

/-- Reads the single continuation byte of a 2-byte UTF-8 sequence. -/
def utf8Take1 (b0 : Nat) : List Nat → Option (Nat × List Nat)
  | b1 :: rest1 =>
    if 0x80 ≤ b1 ∧ b1 < 0xC0 then
      some ((b0 - 0xC0) * 64 + (b1 - 0x80), rest1)
    else none
  | [] => none

/-- Reads the two continuation bytes of a 3-byte UTF-8 sequence. -/
def utf8Take2 (b0 : Nat) : List Nat → Option (Nat × List Nat)
  | b1 :: b2 :: rest2 =>
    if (0x80 ≤ b1 ∧ b1 < 0xC0) ∧ (0x80 ≤ b2 ∧ b2 < 0xC0) then
      some ((b0 - 0xE0) * 4096 + (b1 - 0x80) * 64 + (b2 - 0x80), rest2)
    else none
  | _ => none

/-- Reads the three continuation bytes of a 4-byte UTF-8 sequence. -/
def utf8Take3 (b0 : Nat) : List Nat → Option (Nat × List Nat)
  | b1 :: b2 :: b3 :: rest3 =>
    if (0x80 ≤ b1 ∧ b1 < 0xC0) ∧ (0x80 ≤ b2 ∧ b2 < 0xC0) ∧
        (0x80 ≤ b3 ∧ b3 < 0xC0) then
      some ((b0 - 0xF0) * 262144 + (b1 - 0x80) * 4096 + (b2 - 0x80) * 64 +
        (b3 - 0x80), rest3)
    else none
  | _ => none

/-- Decodes one UTF-8 code point from the front of a byte list, returning
it with the remaining bytes. -/
def utf8DecodeOne : List Nat → Option (Nat × List Nat)
  | [] => none
  | b0 :: rest =>
    if b0 < 0x80 then some (b0, rest)
    else if b0 < 0xC0 then none
    else if b0 < 0xE0 then utf8Take1 b0 rest
    else if b0 < 0xF0 then utf8Take2 b0 rest
    else if b0 < 0xF8 then utf8Take3 b0 rest
    else none

/-- Fuel-driven iteration of utf8DecodeOne; the fuel only bounds the
number of code points, each of which consumes at least one byte. -/
def utf8DecodeLoop : Nat → List Nat → Option (List Nat)
  | _, [] => some []
  | 0, _ :: _ => none
  | fuel + 1, b0 :: rest =>
    match utf8DecodeOne (b0 :: rest) with
    | none => none
    | some (n, rem) => (utf8DecodeLoop fuel rem).map (n :: ·)

/-- UTF-8 decoding of a byte list back to code points. -/
def utf8DecodeCodes (l : List Nat) : Option (List Nat) :=
  utf8DecodeLoop l.length l

/-- Embedding of base64Encode(str) = btoa(unescape(encodeURIComponent(str))):
the base64 rendering of the UTF-8 bytes of the string. -/
def base64Encode (s : String) : String :=
  String.mk (b64EncodeList (utf8Bytes s))

/-- A fetch response as the worker observes it: status and body text.
response.ok is derived: status in [200, 300). -/
structure NetResponse where
  status : Nat
  text : String

/-- The fetch primitive: url, method and request body determine the
response.  safeGitHubRequest also attaches Authorization, Accept and
Content-Type headers in the source; no claim mentions headers, so they are
not part of the model's keying. -/
abbrev Net := String → String → Option String → NetResponse

/-- An inbound HTTP request as the two handlers consume it. -/
structure Request where
  method : String
  /-- value of the x-hub-signature-256 header, none when absent -/
  signature256 : Option String
  body : String

/-- Worker configuration bindings. -/
structure Env where
  GITHUB_OWNER : String
  GITHUB_REPO : String
  FILE_PATH : String
  BRANCH : String
  GH_TOKEN : String
  WEBHOOK_SECRET : String

/-- Body of an outgoing Response: JSON (via JSON.stringify) or plain
text. -/
inductive RespBody where
  | jsonBody (j : Json)
  | textBody (s : String)

/-- An outgoing Response. -/
structure HttpResponse where
  status : Nat
  body : RespBody

/-- jsonResponse(obj, status) from src/index.js (the source defaults
status to 200; call sites here always pass it). -/
def jsonResponse (j : Json) (status : Nat) : HttpResponse :=
  ⟨status, .jsonBody j⟩

/-- new Response("OK"): 200 with a plain-text body. -/
def textResponse (s : String) : HttpResponse :=
  ⟨200, .textBody s⟩

/-- Observable effects of a handler run. -/
inductive Event where
  | jsonParseEv (text : String)
  | netCall (url : String) (method : String) (body : Option String)

/-- Whether an event is an outbound network call. -/
def Event.isNetCall : Event → Bool
  | .netCall _ _ _ => true
  | _ => false

/-- Whether an event is an outbound PUT. -/
def Event.isPut : Event → Bool
  | .netCall _ m _ => m == "PUT"
  | _ => false

/-- The Error objects thrown by the worker, identified by throw site; the
message carried is Err.message.  jsonSyntaxError stands for the
platform-worded SyntaxError from the bare JSON.parse in handleWebhook;
typeError for the TypeError thrown by a property access on a null
receiver (JSON.parse can return null), carrying the accessed property
name; the exact message texts of both are platform-defined and no claim
inspects them. -/
inductive Err where
  | invalidJSONBody
  | fileNotFound
  | nonJSONResponse (text : String)
  | remoteAPIError (status : Nat) (body : Json)
  | jsonSyntaxError (text : String)
  | typeError (prop : String)

/-- err.message for each throw site (the remoteAPIError message embeds the
parsed body; the source pretty-prints it with 2-space indent, modelled
compactly — no claim inspects that message's layout; the typeError
message omits the platform's quoting of the property name). -/
def Err.message : Err → String
  | .invalidJSONBody => "Invalid JSON body"
  | .fileNotFound => "File not found or no permission"
  | .nonJSONResponse t => "GitHub 返回非 JSON 响应:\n" ++ t
  | .remoteAPIError st b => "GitHub API 错误 " ++ toString st ++ ":\n" ++ stringify b
  | .jsonSyntaxError _ => "Unexpected token in JSON"
  | .typeError p => "Cannot read properties of null (reading " ++ p ++ ")"

/-- JS property access v.k as an evaluation step: on a null receiver it
throws a TypeError; on any other non-object value it evaluates to
undefined; on an object it looks the key up.  (JSON.parse never yields
undefined, so null is the only throwing receiver here.) -/
def jsGetProp : Json → String → Except Err (Option Json)
  | .null, k => .error (.typeError k)
  | .obj fs, k => .ok (Json.lookupField fs k)
  | _, _ => .ok none

/-- Embedding of safeGitHubRequest(url, env, options): fetch, read the
text, JSON.parse it (throwing nonJSONResponse on failure), then throw
remoteAPIError unless response.ok.  parse is the JSON.parse primitive. -/
def safeGitHubRequest (parse : String → Option Json) (net : Net)
    (url : String) (env : Env) (method : String) (reqBody : Option String) :
    Except Err Json × List Event :=
  let resp := net url method reqBody
  match parse resp.text with
  | none => (.error (.nonJSONResponse resp.text), [.netCall url method reqBody])
  | some data =>
    if 200 ≤ resp.status ∧ resp.status < 300 then
      (.ok data, [.netCall url method reqBody])
    else
      (.error (.remoteAPIError resp.status data), [.netCall url method reqBody])

/-- Embedding of safeParseRequestJSON(request): JSON.parse of the request
body, throwing "Invalid JSON body" on failure. -/
def safeParseRequestJSON (parse : String → Option Json) (req : Request) :
    Except Err Json × List Event :=
  match parse req.body with
  | some j => (.ok j, [.jsonParseEv req.body])
  | none => (.error .invalidJSONBody, [.jsonParseEv req.body])

/-- The GET url built in handleUpdate step 1. -/
def contentsReadUrl (env : Env) : String :=
  "https://api.github.com/repos/" ++ env.GITHUB_OWNER ++ "/" ++
    env.GITHUB_REPO ++ "/contents/" ++ env.FILE_PATH ++ "?ref=" ++ env.BRANCH

/-- The PUT url built in handleUpdate step 2. -/
def contentsWriteUrl (env : Env) : String :=
  "https://api.github.com/repos/" ++ env.GITHUB_OWNER ++ "/" ++
    env.GITHUB_REPO ++ "/contents/" ++ env.FILE_PATH

/-- JSON.stringify of an object literal drops fields whose value is
undefined; mkField renders an optional value as zero or one fields. -/
def mkField (k : String) : Option Json → List (String × Json)
  | none => []
  | some v => [(k, v)]

/-- JS optional chain x.k1?.k2: the plain access x.k1 throws when x is
null; the guarded access then yields undefined when x.k1 is missing,
undefined or null, and otherwise that (non-null) value's property k2,
which can no longer throw. -/
def optChain2 (j : Json) (k1 k2 : String) : Except Err (Option Json) :=
  match jsGetProp j k1 with
  | .error e => .error e
  | .ok none => .ok none
  | .ok (some .null) => .ok none
  | .ok (some c) => .ok (c.getField k2)

/-- Embedding of handleUpdate(request, env): method gate, body parse and
content check (body.content throws when the parsed body is null), GET of
the file metadata, sha truthiness gate (fileData.sha likewise throws on a
null read body), PUT of the new content (re-accessing body.content and
fileData.sha is safe there, both receivers being non-null on that path),
and the success response whose commit extraction
updateResult.commit?.sha throws when the write response is null. -/
def handleUpdate (parse : String → Option Json) (net : Net)
    (req : Request) (env : Env) : Except Err HttpResponse × List Event :=
  if req.method ≠ "POST" then
    (.ok (jsonResponse (.obj [("error", .str "Method not allowed")]) 405), [])
  else
    match safeParseRequestJSON parse req with
    | (.error e, ev1) => (.error e, ev1)
    | (.ok body, ev1) =>
      match jsGetProp body "content" with
      | .error e => (.error e, ev1)
      | .ok contentOpt =>
        if jsTruthyOpt contentOpt = false then
          (.ok (jsonResponse (.obj [("error", .str "Missing content")]) 400), ev1)
        else
          match safeGitHubRequest parse net (contentsReadUrl env) env "GET" none with
          | (.error e, ev2) => (.error e, ev1 ++ ev2)
          | (.ok fileData, ev2) =>
            match jsGetProp fileData "sha" with
            | .error e => (.error e, ev1 ++ ev2)
            | .ok shaOpt =>
              if jsTruthyOpt shaOpt = false then
                (.error .fileNotFound, ev1 ++ ev2)
              else
                match safeGitHubRequest parse net (contentsWriteUrl env) env "PUT"
                    (some (stringify (.obj
                      ([("message", .str "auto update images.txt"),
                        ("content", .str (base64Encode
                          (jsToStringOpt contentOpt)))] ++
                       mkField "sha" shaOpt ++
                       [("branch", .str env.BRANCH)])))) with
                | (.error e, ev3) => (.error e, ev1 ++ ev2 ++ ev3)
                | (.ok updateResult, ev3) =>
                  match optChain2 updateResult "commit" "sha" with
                  | .error e => (.error e, ev1 ++ ev2 ++ ev3)
                  | .ok commitOpt =>
                    (.ok (jsonResponse (.obj
                      (("message", .str "Update triggered") ::
                        mkField "commit" commitOpt)) 200),
                     ev1 ++ ev2 ++ ev3)

/-- Embedding of handleWebhook(request, env).  hmac is the crypto.subtle
HMAC-SHA-256 primitive, parse is JSON.parse.  The function takes no
network primitive: the source performs no fetch here.  The first
property access payload.action throws when the verified body parsed to
null; after it succeeds the payload is non-null, so payload.workflow_run
and (on the summary branch, where workflow_run is truthy hence non-null
and defined, making the getD default dead) the run field reads are plain
non-throwing accesses. -/
def handleWebhook (parse : String → Option Json)
    (hmac : String → String → List Nat) (req : Request) (env : Env) :
    Except Err HttpResponse × List Event :=
  if req.method ≠ "POST" then
    (.ok (textResponse "OK"), [])
  else if verifySignature hmac req.body req.signature256 env.WEBHOOK_SECRET = false then
    (.ok (jsonResponse (.obj [("error", .str "Invalid signature")]) 401), [])
  else
    match parse req.body with
    | none => (.error (.jsonSyntaxError req.body), [.jsonParseEv req.body])
    | some payload =>
      match jsGetProp payload "action" with
      | .error e => (.error e, [.jsonParseEv req.body])
      | .ok actionOpt =>
      if strictEqStr actionOpt "completed"
          && jsTruthyOpt (payload.getField "workflow_run") then
        (.ok (jsonResponse (.obj
          (mkField "workflow"
              (((payload.getField "workflow_run").getD .null).getField "name") ++
           mkField "status"
              (((payload.getField "workflow_run").getD .null).getField "status") ++
           mkField "conclusion"
              (((payload.getField "workflow_run").getD .null).getField "conclusion") ++
           mkField "commit"
              (((payload.getField "workflow_run").getD .null).getField "head_sha"))) 200),
         [.jsonParseEv req.body])
      else
        (.ok (jsonResponse (.obj [("message", .str "Ignored event")]) 200),
         [.jsonParseEv req.body])

/-- Embedding of the default export's fetch(request, env): path dispatch
plus the try/catch converting any thrown Err into a 500 response carrying
err.message || "Internal Error". -/
def workerFetch (parse : String → Option Json) (net : Net)
    (hmac : String → String → List Nat) (path : String)
    (req : Request) (env : Env) : HttpResponse × List Event :=
  let handled : Except Err HttpResponse × List Event :=
    if path = "/update" then handleUpdate parse net req env
    else if path = "/webhook" then handleWebhook parse hmac req env
    else (.ok (jsonResponse (.obj [("error", .str "Not Found")]) 404), [])
  match handled with
  | (.ok r, ev) => (r, ev)
  | (.error e, ev) =>
    (jsonResponse (.obj [("error",
      .str (if e.message = "" then "Internal Error" else e.message))]) 500, ev)

/-- The commit field of the Update Flow's success response as claim C3
words it: the sha of the commit object of the write response, and no
field at all when the write response omits it. -/
def claimCommitField (w : Json) : List (String × Json) :=
  match w.getField "commit" with
  | none => []
  | some .null => []
  | some c =>
    match c.getField "sha" with
    | none => []
    | some v => [("commit", v)]

/-- Any token of the form "sha256=..." is a nonempty string. -/
lemma sha256_token_ne_empty (x : String) : "sha256=" ++ x ≠ "" := by
  intro h
  have h2 : ("sha256=" ++ x).length = 0 := by rw [h]; rfl
  rw [String.length_append] at h2
  have h3 : ("sha256=" : String).length = 7 := rfl
  omega

/-- C1: verifySignature returns true exactly when the presented token is
present and equals "sha256=" followed by the lowercase hexadecimal
rendering of the HMAC-SHA-256 digest of the body keyed by the secret; an
absent token yields false. -/
theorem C1_verifySignature_iff
    (hmac : String → String → List Nat) (b k : String) (t : Option String) :
    (verifySignature hmac b t k = true ↔
      ∃ s, t = some s ∧ s = "sha256=" ++ bytesToHex (hmac k b)) ∧
    verifySignature hmac b none k = false := by
  refine ⟨?_, rfl⟩
  cases t with
  | none => simp [verifySignature]
  | some sg =>
    by_cases hsg : sg = ""
    · subst hsg
      simp only [verifySignature, if_pos rfl]
      constructor
      · intro h; cases h
      · rintro ⟨s, hs, he⟩
        cases hs
        exact absurd he.symm (sha256_token_ne_empty _)
    · simp only [verifySignature, if_neg hsg, beq_iff_eq]
      constructor
      · intro h; exact ⟨sg, rfl, h.symm⟩
      · rintro ⟨s, hs, he⟩
        cases hs
        exact he.symm

/-- C2: a POST webhook request whose signature fails verification yields
401 with body error "Invalid signature", and the body is never passed to
JSON parsing: the event trace is empty, so verification precedes any
parse of the payload. -/
theorem C2_webhook_unauthorized_before_parse
    (parse : String → Option Json) (hmac : String → String → List Nat)
    (req : Request) (env : Env)
    (hm : req.method = "POST")
    (hv : verifySignature hmac req.body req.signature256 env.WEBHOOK_SECRET = false) :
    handleWebhook parse hmac req env =
      (.ok (jsonResponse (.obj [("error", .str "Invalid signature")]) 401), []) := by
  simp [handleWebhook, hm, hv]

/-- Closed instance of C2 at a concrete request. -/
theorem C2_webhook_unauthorized_before_parse_witness :
    handleWebhook (fun _ => none) (fun _ _ => [0])
      ⟨"POST", none, "x"⟩ ⟨"o", "r", "f", "b", "t", "sec"⟩ =
      (.ok (jsonResponse (.obj [("error", .str "Invalid signature")]) 401), []) :=
  C2_webhook_unauthorized_before_parse (fun _ => none) (fun _ _ => [0])
    ⟨"POST", none, "x"⟩ ⟨"o", "r", "f", "b", "t", "sec"⟩ rfl rfl

/-- C10: the webhook flow performs no outbound network call on any
request: its event trace contains no netCall entry, so the remote
repository state is untouched (the handler does not even receive the
fetch primitive). -/
theorem C10_webhook_no_network
    (parse : String → Option Json) (hmac : String → String → List Nat)
    (req : Request) (env : Env) :
    ((handleWebhook parse hmac req env).2).all (fun e => !e.isNetCall) = true := by
  unfold handleWebhook
  split
  · rfl
  · split
    · rfl
    · cases hp : parse req.body with
      | none => simp [Event.isNetCall]
      | some payload =>
        simp only
        cases ha : jsGetProp payload "action" with
        | error e => simp [Event.isNetCall]
        | ok actionOpt =>
          simp only
          split <;> simp [Event.isNetCall]

/-- C9: the update flow answers 400 "Missing content", with no network
call, whenever the parsed body's content access evaluates (the body is
not JSON null, on which the access throws) and yields a falsy value —
absent, or any of null, false, 0, "" — so some bodies that do contain a
content field are still rejected. -/
theorem C9_falsy_content_rejected
    (parse : String → Option Json) (net : Net) (req : Request) (env : Env)
    (hm : req.method = "POST") (b : Json)
    (hp : parse req.body = some b)
    (hfalsy : jsGetProp b "content" = .ok none ∨
      jsGetProp b "content" = .ok (some .null) ∨
      jsGetProp b "content" = .ok (some (.bool false)) ∨
      jsGetProp b "content" = .ok (some (.num 0)) ∨
      jsGetProp b "content" = .ok (some (.str ""))) :
    handleUpdate parse net req env =
      (.ok (jsonResponse (.obj [("error", .str "Missing content")]) 400),
       [.jsonParseEv req.body]) := by
  obtain ⟨o, ho, hto⟩ : ∃ o, jsGetProp b "content" = .ok o ∧ jsTruthyOpt o = false := by
    rcases hfalsy with h | h | h | h | h <;> exact ⟨_, h, rfl⟩
  simp [handleUpdate, hm, safeParseRequestJSON, hp, ho, hto]

/-- Closed instance of C9: a body with content 0 is rejected as missing. -/
theorem C9_falsy_content_rejected_witness :
    handleUpdate (fun _ => some (.obj [("content", .num 0)])) (fun _ _ _ => ⟨200, ""⟩)
      ⟨"POST", none, "z"⟩ ⟨"o", "r", "f", "b", "t", "sec"⟩ =
      (.ok (jsonResponse (.obj [("error", .str "Missing content")]) 400),
       [.jsonParseEv "z"]) :=
  C9_falsy_content_rejected (fun _ => some (.obj [("content", .num 0)]))
    (fun _ _ _ => ⟨200, ""⟩) ⟨"POST", none, "z"⟩ ⟨"o", "r", "f", "b", "t", "sec"⟩
    rfl (.obj [("content", .num 0)]) rfl
    (Or.inr (Or.inr (Or.inr (Or.inl rfl))))

/-- C4: when the remote read succeeds and parses but accessing the
response's sha evaluates to undefined (the response is not JSON null, on
which the access would throw a TypeError instead), the update flow fails
with the error whose message is "File not found or no permission" and
performs no write: the trace holds only the body parse and the single
GET. -/
theorem C4_missing_sha_no_write
    (parse : String → Option Json) (net : Net) (req : Request) (env : Env)
    (hm : req.method = "POST") (b : Json) (co : Option Json)
    (hp : parse req.body = some b)
    (hc : jsGetProp b "content" = .ok co)
    (hct : jsTruthyOpt co = true)
    (fd : Json)
    (hfd : parse (net (contentsReadUrl env) "GET" none).text = some fd)
    (hok : 200 ≤ (net (contentsReadUrl env) "GET" none).status ∧
           (net (contentsReadUrl env) "GET" none).status < 300)
    (hsha : jsGetProp fd "sha" = .ok none) :
    handleUpdate parse net req env =
      (.error .fileNotFound,
       [.jsonParseEv req.body, .netCall (contentsReadUrl env) "GET" none]) ∧
    Err.message .fileNotFound = "File not found or no permission" := by
  refine ⟨?_, rfl⟩
  obtain ⟨hok1, hok2⟩ := hok
  have hshaF : jsTruthyOpt (none : Option Json) = false := rfl
  simp [handleUpdate, hm, safeParseRequestJSON, hp, hc, hct,
    safeGitHubRequest, hfd, hok1, hok2, hsha, hshaF]

/-- Closed instance of C4 at a concrete mock read returning no sha. -/
theorem C4_missing_sha_no_write_witness :
    handleUpdate (fun t => if t = "req" then some (.obj [("content", .str "c")])
        else some (.obj [("ok", .bool true)]))
      (fun _ _ _ => ⟨200, "resp"⟩)
      ⟨"POST", none, "req"⟩ ⟨"o", "r", "f", "b", "t", "sec"⟩ =
      (.error .fileNotFound,
       [.jsonParseEv "req",
        .netCall (contentsReadUrl ⟨"o", "r", "f", "b", "t", "sec"⟩) "GET" none]) :=
  (C4_missing_sha_no_write
    (fun t => if t = "req" then some (.obj [("content", .str "c")])
        else some (.obj [("ok", .bool true)]))
    (fun _ _ _ => ⟨200, "resp"⟩)
    ⟨"POST", none, "req"⟩ ⟨"o", "r", "f", "b", "t", "sec"⟩
    rfl (.obj [("content", .str "c")]) (some (.str "c")) rfl rfl rfl
    (.obj [("ok", .bool true)]) rfl (by constructor <;> decide) rfl).1

/-- C8: safeGitHubRequest checks JSON parsability of the remote body
before the HTTP status: an unparsable body always raises nonJSONResponse
carrying the raw text, whatever the status; remoteAPIError is raised only
when the body parsed as JSON, and only on a non-success status. -/
theorem C8_parse_checked_before_status
    (parse : String → Option Json) (net : Net) (url : String) (env : Env)
    (method : String) (reqBody : Option String) :
    (parse (net url method reqBody).text = none →
      safeGitHubRequest parse net url env method reqBody =
        (.error (.nonJSONResponse (net url method reqBody).text),
         [.netCall url method reqBody])) ∧
    (∀ st b, (safeGitHubRequest parse net url env method reqBody).1 =
        .error (.remoteAPIError st b) →
      parse (net url method reqBody).text = some b ∧
      st = (net url method reqBody).status ∧
      ¬(200 ≤ (net url method reqBody).status ∧
        (net url method reqBody).status < 300)) := by
  constructor
  · intro h
    simp [safeGitHubRequest, h]
  · intro st b h
    unfold safeGitHubRequest at h
    cases hp : parse (net url method reqBody).text with
    | none => simp [hp] at h
    | some data =>
      simp only [hp] at h
      by_cases hok : 200 ≤ (net url method reqBody).status ∧
          (net url method reqBody).status < 300
      · rw [if_pos hok] at h
        simp at h
      · rw [if_neg hok] at h
        have h2 : Err.remoteAPIError (net url method reqBody).status data =
            Err.remoteAPIError st b := by injection h
        injection h2 with hst hb
        exact ⟨congrArg some hb, hst.symm, hok⟩

/-- Closed instance of C8: an unparsable 500 body raises the non-JSON
error with the raw text, and a parsable 500 body raises the API error
whose carried status is the response's. -/
theorem C8_parse_checked_before_status_witness :
    safeGitHubRequest (fun _ => none) (fun _ _ _ => ⟨500, "oops"⟩)
      "u" ⟨"o", "r", "f", "b", "t", "sec"⟩ "GET" none =
      (.error (.nonJSONResponse "oops"), [.netCall "u" "GET" none]) ∧
    ((fun _ => some Json.null : String → Option Json) "oops" = some Json.null ∧
      (500 : Nat) = 500 ∧ ¬((200 : Nat) ≤ 500 ∧ (500 : Nat) < 300)) :=
  ⟨(C8_parse_checked_before_status (fun _ => none) (fun _ _ _ => ⟨500, "oops"⟩)
      "u" ⟨"o", "r", "f", "b", "t", "sec"⟩ "GET" none).1 rfl,
   (C8_parse_checked_before_status (fun _ => some Json.null)
      (fun _ _ _ => ⟨500, "oops"⟩) "u" ⟨"o", "r", "f", "b", "t", "sec"⟩
      "GET" none).2 500 Json.null rfl⟩

/-- C5 counterexample: a POST /update whose body fails to parse as JSON is
answered with HTTP status 500 (the thrown "Invalid JSON body" caught at
the dispatch boundary), not with status 400 as the claim states; no
network call is made. -/
theorem C5_counterexample_parse_failure_is_500 :
    (workerFetch (fun _ => none) (fun _ _ _ => ⟨200, ""⟩) (fun _ _ => [0])
        "/update" ⟨"POST", none, "not json"⟩ ⟨"o", "r", "f", "b", "t", "sec"⟩) =
      (jsonResponse (.obj [("error", .str "Invalid JSON body")]) 500,
       [.jsonParseEv "not json"]) ∧
    (workerFetch (fun _ => none) (fun _ _ _ => ⟨200, ""⟩) (fun _ _ => [0])
        "/update" ⟨"POST", none, "not json"⟩ ⟨"o", "r", "f", "b", "t", "sec"⟩).1.status
      ≠ 400 := by
  constructor
  · rfl
  · intro h
    have : (500 : Nat) = 400 := h
    omega

/-- C5 (amended): for a POST /update request, a body that parses as JSON
to a value whose content access evaluates to a falsy result yields 400
with no network call; a body that fails to parse as JSON yields the
"Invalid JSON body" failure, surfaced as HTTP 500 rather than 400; and a
body parsing to JSON null makes the content access throw a TypeError,
also surfaced as 500 — in every case the trace holds only the parse
attempt, so no network call is ever reached. -/
theorem C5_amended_invalid_input_before_network
    (parse : String → Option Json) (net : Net)
    (hmac : String → String → List Nat) (req : Request) (env : Env)
    (hm : req.method = "POST") :
    (parse req.body = none →
      workerFetch parse net hmac "/update" req env =
        (jsonResponse (.obj [("error", .str "Invalid JSON body")]) 500,
         [.jsonParseEv req.body])) ∧
    (∀ b o, parse req.body = some b →
      jsGetProp b "content" = .ok o →
      jsTruthyOpt o = false →
      workerFetch parse net hmac "/update" req env =
        (jsonResponse (.obj [("error", .str "Missing content")]) 400,
         [.jsonParseEv req.body])) ∧
    (parse req.body = some .null →
      workerFetch parse net hmac "/update" req env =
        (jsonResponse (.obj [("error",
          .str (Err.message (.typeError "content")))]) 500,
         [.jsonParseEv req.body])) := by
  refine ⟨?_, ?_, ?_⟩
  · intro hp
    simp [workerFetch, handleUpdate, hm, safeParseRequestJSON, hp, Err.message]
  · intro b o hp ho ht
    simp [workerFetch, handleUpdate, hm, safeParseRequestJSON, hp, ho, ht]
  · intro hp
    have hne : Err.message (.typeError "content") ≠ "" := by decide
    simp [workerFetch, handleUpdate, hm, safeParseRequestJSON, hp, jsGetProp, hne]

/-- Closed instance of the amended C5 at a non-JSON body, a content-free
JSON body and a body parsing to JSON null. -/
theorem C5_amended_invalid_input_before_network_witness :
    workerFetch (fun _ => none) (fun _ _ _ => ⟨200, ""⟩) (fun _ _ => [0])
        "/update" ⟨"POST", none, "nj"⟩ ⟨"o", "r", "f", "b", "t", "sec"⟩ =
      (jsonResponse (.obj [("error", .str "Invalid JSON body")]) 500,
       [.jsonParseEv "nj"]) ∧
    workerFetch (fun _ => some (.obj [])) (fun _ _ _ => ⟨200, ""⟩) (fun _ _ => [0])
        "/update" ⟨"POST", none, "ob"⟩ ⟨"o", "r", "f", "b", "t", "sec"⟩ =
      (jsonResponse (.obj [("error", .str "Missing content")]) 400,
       [.jsonParseEv "ob"]) ∧
    workerFetch (fun _ => some .null) (fun _ _ _ => ⟨200, ""⟩) (fun _ _ => [0])
        "/update" ⟨"POST", none, "null"⟩ ⟨"o", "r", "f", "b", "t", "sec"⟩ =
      (jsonResponse (.obj [("error",
        .str (Err.message (.typeError "content")))]) 500,
       [.jsonParseEv "null"]) :=
  ⟨(C5_amended_invalid_input_before_network (fun _ => none)
      (fun _ _ _ => ⟨200, ""⟩) (fun _ _ => [0])
      ⟨"POST", none, "nj"⟩ ⟨"o", "r", "f", "b", "t", "sec"⟩ rfl).1 rfl,
   (C5_amended_invalid_input_before_network (fun _ => some (.obj []))
      (fun _ _ _ => ⟨200, ""⟩) (fun _ _ => [0])
      ⟨"POST", none, "ob"⟩ ⟨"o", "r", "f", "b", "t", "sec"⟩ rfl).2.1
      (.obj []) none rfl rfl rfl,
   (C5_amended_invalid_input_before_network (fun _ => some .null)
      (fun _ _ _ => ⟨200, ""⟩) (fun _ _ => [0])
      ⟨"POST", none, "null"⟩ ⟨"o", "r", "f", "b", "t", "sec"⟩ rfl).2.2 rfl⟩

/-- C7 counterexample: a verified payload whose action is "completed" and
whose workflow_run field holds the truthy non-object value true carries no
workflow_run object, yet the flow does not answer with the ignored-event
outcome — the code tests truthiness of workflow_run, not objecthood, and
here returns an empty summary object (every field undefined, hence
dropped). -/
theorem C7_counterexample_truthy_nonobject_run :
    (¬ ∃ fs, (Json.obj [("action", Json.str "completed"),
        ("workflow_run", Json.bool true)]).getField "workflow_run" =
        some (.obj fs)) ∧
    verifySignature (fun _ _ => [0]) "P" (some "sha256=00") "sec" = true ∧
    handleWebhook
        (fun s => if s = "P" then
          some (.obj [("action", .str "completed"), ("workflow_run", .bool true)])
          else none)
        (fun _ _ => [0]) ⟨"POST", some "sha256=00", "P"⟩
        ⟨"o", "r", "f", "b", "t", "sec"⟩ =
      (.ok (jsonResponse (.obj []) 200), [.jsonParseEv "P"]) ∧
    (Except.ok (jsonResponse (.obj []) 200) : Except Err HttpResponse) ≠
      .ok (jsonResponse (.obj [("message", .str "Ignored event")]) 200) := by
  refine ⟨?_, rfl, rfl, ?_⟩
  · rintro ⟨fs, h⟩
    simp [Json.getField, Json.lookupField] at h
  · intro h
    simp [jsonResponse] at h

/-- A defined property read (strict-equal to a string literal) forces the
receiver to be an object: on every other receiver the access is undefined
or throws, never a string. -/
lemma getField_strictEq_obj (payload : Json) (k lit : String)
    (h : strictEqStr (payload.getField k) lit = true) :
    ∃ gs, payload = Json.obj gs := by
  cases payload <;> first
    | exact ⟨_, rfl⟩
    | simp [Json.getField, strictEqStr] at h

/-- A defined property read forces the receiver to be an object. -/
lemma getField_some_obj (payload : Json) (k : String) (v : Json)
    (h : payload.getField k = some v) :
    ∃ gs, payload = Json.obj gs := by
  cases payload <;> first
    | exact ⟨_, rfl⟩
    | simp [Json.getField] at h

/-- The summary branch of handleWebhook, taken whenever the action access
evaluates and the classification condition holds on a verified parsed
payload. -/
lemma webhook_summary_branch
    (parse : String → Option Json) (hmac : String → String → List Nat)
    (req : Request) (env : Env) (payload : Json) (actionOpt : Option Json)
    (hm : req.method = "POST")
    (hv : verifySignature hmac req.body req.signature256 env.WEBHOOK_SECRET = true)
    (hp : parse req.body = some payload)
    (ha : jsGetProp payload "action" = .ok actionOpt)
    (hcond : (strictEqStr actionOpt "completed"
        && jsTruthyOpt (payload.getField "workflow_run")) = true) :
    handleWebhook parse hmac req env =
      (.ok (jsonResponse (.obj
        (mkField "workflow"
            (((payload.getField "workflow_run").getD .null).getField "name") ++
         mkField "status"
            (((payload.getField "workflow_run").getD .null).getField "status") ++
         mkField "conclusion"
            (((payload.getField "workflow_run").getD .null).getField "conclusion") ++
         mkField "commit"
            (((payload.getField "workflow_run").getD .null).getField "head_sha"))) 200),
       [.jsonParseEv req.body]) := by
  simp [handleWebhook, hm, hv, hp, ha, hcond]

/-- C7 (amended): for every verified POST webhook payload the flow takes
the summary branch exactly when action is the string "completed" and the
workflow_run field is truthy (the code tests truthiness, not objecthood);
when workflow_run is an object its name, status, conclusion and head_sha
are copied verbatim into the summary (fields the response omits when the
run omits them); every other verified payload on which the action access
evaluates (the payload is not JSON null) yields the ignored-event
outcome; a verified body parsing to JSON null instead throws a TypeError
at the action access; and a non-POST request is acknowledged with
plain-text 200 "OK". -/
theorem C7_amended_webhook_classification
    (parse : String → Option Json) (hmac : String → String → List Nat)
    (req : Request) (env : Env) :
    (req.method ≠ "POST" →
      handleWebhook parse hmac req env = (.ok (textResponse "OK"), [])) ∧
    (∀ payload, req.method = "POST" →
      verifySignature hmac req.body req.signature256 env.WEBHOOK_SECRET = true →
      parse req.body = some payload →
      (strictEqStr (payload.getField "action") "completed"
        && jsTruthyOpt (payload.getField "workflow_run")) = true →
      handleWebhook parse hmac req env =
        (.ok (jsonResponse (.obj
          (mkField "workflow"
              (((payload.getField "workflow_run").getD .null).getField "name") ++
           mkField "status"
              (((payload.getField "workflow_run").getD .null).getField "status") ++
           mkField "conclusion"
              (((payload.getField "workflow_run").getD .null).getField "conclusion") ++
           mkField "commit"
              (((payload.getField "workflow_run").getD .null).getField "head_sha"))) 200),
         [.jsonParseEv req.body])) ∧
    (∀ payload fs n st co hs, req.method = "POST" →
      verifySignature hmac req.body req.signature256 env.WEBHOOK_SECRET = true →
      parse req.body = some payload →
      payload.getField "action" = some (.str "completed") →
      payload.getField "workflow_run" = some (.obj fs) →
      Json.lookupField fs "name" = some n →
      Json.lookupField fs "status" = some st →
      Json.lookupField fs "conclusion" = some co →
      Json.lookupField fs "head_sha" = some hs →
      handleWebhook parse hmac req env =
        (.ok (jsonResponse (.obj
          [("workflow", n), ("status", st), ("conclusion", co), ("commit", hs)]) 200),
         [.jsonParseEv req.body])) ∧
    (∀ payload actionOpt, req.method = "POST" →
      verifySignature hmac req.body req.signature256 env.WEBHOOK_SECRET = true →
      parse req.body = some payload →
      jsGetProp payload "action" = .ok actionOpt →
      (strictEqStr actionOpt "completed"
        && jsTruthyOpt (payload.getField "workflow_run")) = false →
      handleWebhook parse hmac req env =
        (.ok (jsonResponse (.obj [("message", .str "Ignored event")]) 200),
         [.jsonParseEv req.body])) ∧
    (req.method = "POST" →
      verifySignature hmac req.body req.signature256 env.WEBHOOK_SECRET = true →
      parse req.body = some .null →
      handleWebhook parse hmac req env =
        (.error (.typeError "action"), [.jsonParseEv req.body])) := by
  refine ⟨?_, ?_, ?_, ?_, ?_⟩
  · intro hne
    simp [handleWebhook, hne]
  · intro payload hm hv hp hcond
    have ht : strictEqStr (payload.getField "action") "completed" = true :=
      ((Bool.and_eq_true _ _).mp hcond).1
    obtain ⟨gs, rfl⟩ := getField_strictEq_obj payload "action" "completed" ht
    exact webhook_summary_branch parse hmac req env (.obj gs)
      ((Json.obj gs).getField "action") hm hv hp rfl hcond
  · intro payload fs n st co hs hm hv hp hAction hWr hn hst hco hhs
    obtain ⟨gs, rfl⟩ := getField_some_obj payload "workflow_run" (.obj fs) hWr
    have hcond : (strictEqStr ((Json.obj gs).getField "action") "completed"
        && jsTruthyOpt ((Json.obj gs).getField "workflow_run")) = true := by
      rw [hAction, hWr]; rfl
    rw [webhook_summary_branch parse hmac req env (.obj gs)
      ((Json.obj gs).getField "action") hm hv hp rfl hcond, hWr]
    simp [Json.getField, hn, hst, hco, hhs, mkField]
  · intro payload actionOpt hm hv hp ha hcond
    simp [handleWebhook, hm, hv, hp, ha, hcond]
  · intro hm hv hp
    simp [handleWebhook, hm, hv, hp, jsGetProp]

/-- Closed instance of the amended C7: a non-POST probe, a fully populated
completed run, an uncompleted event, and a verified null payload, all at
concrete inputs. -/
theorem C7_amended_webhook_classification_witness :
    handleWebhook (fun _ => none) (fun _ _ => [0]) ⟨"GET", none, ""⟩
        ⟨"o", "r", "f", "b", "t", "sec"⟩ = (.ok (textResponse "OK"), []) ∧
    handleWebhook
        (fun _ => some (.obj [("action", .str "completed"),
          ("workflow_run", .obj [("name", .str "CI"), ("status", .str "completed"),
            ("conclusion", .str "success"), ("head_sha", .str "xyz")])]))
        (fun _ _ => [0]) ⟨"POST", some "sha256=00", "B"⟩
        ⟨"o", "r", "f", "b", "t", "sec"⟩ =
      (.ok (jsonResponse (.obj
        [("workflow", .str "CI"), ("status", .str "completed"),
         ("conclusion", .str "success"), ("commit", .str "xyz")]) 200),
       [.jsonParseEv "B"]) ∧
    handleWebhook (fun _ => some (.obj [("action", .str "requested")]))
        (fun _ _ => [0]) ⟨"POST", some "sha256=00", "B"⟩
        ⟨"o", "r", "f", "b", "t", "sec"⟩ =
      (.ok (jsonResponse (.obj [("message", .str "Ignored event")]) 200),
       [.jsonParseEv "B"]) ∧
    handleWebhook (fun _ => some .null)
        (fun _ _ => [0]) ⟨"POST", some "sha256=00", "B"⟩
        ⟨"o", "r", "f", "b", "t", "sec"⟩ =
      (.error (.typeError "action"), [.jsonParseEv "B"]) :=
  ⟨(C7_amended_webhook_classification (fun _ => none) (fun _ _ => [0])
      ⟨"GET", none, ""⟩ ⟨"o", "r", "f", "b", "t", "sec"⟩).1 (by decide),
   (C7_amended_webhook_classification
      (fun _ => some (.obj [("action", .str "completed"),
        ("workflow_run", .obj [("name", .str "CI"), ("status", .str "completed"),
          ("conclusion", .str "success"), ("head_sha", .str "xyz")])]))
      (fun _ _ => [0]) ⟨"POST", some "sha256=00", "B"⟩
      ⟨"o", "r", "f", "b", "t", "sec"⟩).2.2.1
      (.obj [("action", .str "completed"),
        ("workflow_run", .obj [("name", .str "CI"), ("status", .str "completed"),
          ("conclusion", .str "success"), ("head_sha", .str "xyz")])])
      [("name", .str "CI"), ("status", .str "completed"),
        ("conclusion", .str "success"), ("head_sha", .str "xyz")]
      (.str "CI") (.str "completed") (.str "success") (.str "xyz")
      rfl rfl rfl rfl rfl rfl rfl rfl rfl,
   (C7_amended_webhook_classification
      (fun _ => some (.obj [("action", .str "requested")]))
      (fun _ _ => [0]) ⟨"POST", some "sha256=00", "B"⟩
      ⟨"o", "r", "f", "b", "t", "sec"⟩).2.2.2.1
      (.obj [("action", .str "requested")]) (some (.str "requested"))
      rfl rfl rfl rfl rfl,
   (C7_amended_webhook_classification (fun _ => some .null)
      (fun _ _ => [0]) ⟨"POST", some "sha256=00", "B"⟩
      ⟨"o", "r", "f", "b", "t", "sec"⟩).2.2.2.2 rfl rfl rfl⟩

/-- The JSON body of the write request as claim C3 describes it: the fixed
commit message, the base64 encoding of the input content, the sha obtained
from the read, and the configured branch. -/
def putRequestBody (c sval : String) (env : Env) : String :=
  stringify (.obj
    [("message", .str "auto update images.txt"),
     ("content", .str (base64Encode c)),
     ("sha", .str sval),
     ("branch", .str env.BRANCH)])

/-- On a non-null write response the optional chain does not throw, and
the handler's extraction of the commit sha renders the same field list as
the claim-side description claimCommitField. -/
lemma optChain2_commit_spec (w : Json) (hw : w ≠ Json.null) :
    ∃ co, optChain2 w "commit" "sha" = .ok co ∧
      mkField "commit" co = claimCommitField w := by
  cases w with
  | null => exact absurd rfl hw
  | bool b => exact ⟨none, rfl, rfl⟩
  | num n => exact ⟨none, rfl, rfl⟩
  | str s => exact ⟨none, rfl, rfl⟩
  | arr xs => exact ⟨none, rfl, rfl⟩
  | obj fs =>
    cases hc : Json.lookupField fs "commit" with
    | none =>
      exact ⟨none, by simp [optChain2, jsGetProp, hc],
        by simp [claimCommitField, Json.getField, hc, mkField]⟩
    | some c =>
      cases c with
      | null =>
        exact ⟨none, by simp [optChain2, jsGetProp, hc],
          by simp [claimCommitField, Json.getField, hc, mkField]⟩
      | bool b =>
        exact ⟨none, by simp [optChain2, jsGetProp, hc, Json.getField],
          by simp [claimCommitField, Json.getField, hc, mkField]⟩
      | num n =>
        exact ⟨none, by simp [optChain2, jsGetProp, hc, Json.getField],
          by simp [claimCommitField, Json.getField, hc, mkField]⟩
      | str s =>
        exact ⟨none, by simp [optChain2, jsGetProp, hc, Json.getField],
          by simp [claimCommitField, Json.getField, hc, mkField]⟩
      | arr xs =>
        exact ⟨none, by simp [optChain2, jsGetProp, hc, Json.getField],
          by simp [claimCommitField, Json.getField, hc, mkField]⟩
      | obj cs =>
        cases hs : Json.lookupField cs "sha" with
        | none =>
          exact ⟨none, by simp [optChain2, jsGetProp, hc, Json.getField, hs],
            by simp [claimCommitField, Json.getField, hc, hs, mkField]⟩
        | some v =>
          exact ⟨some v, by simp [optChain2, jsGetProp, hc, Json.getField, hs],
            by simp [claimCommitField, Json.getField, hc, hs, mkField]⟩

/-- C3: when the read returns a nonempty sha and the input has nonempty
string content, the update flow issues exactly one PUT, whose JSON body
holds that sha, the base64 content, the fixed commit message and the
configured branch, and answers 200 with message "Update triggered" plus
the write response's commit sha — the commit field absent when the write
response omits it. -/
theorem C3_update_success_put_once
    (parse : String → Option Json) (net : Net) (req : Request) (env : Env)
    (c sval : String) (b fd w : Json)
    (hm : req.method = "POST")
    (hp : parse req.body = some b)
    (hc : b.getField "content" = some (.str c))
    (hcne : c ≠ "")
    (hfd : parse (net (contentsReadUrl env) "GET" none).text = some fd)
    (hgok : 200 ≤ (net (contentsReadUrl env) "GET" none).status ∧
            (net (contentsReadUrl env) "GET" none).status < 300)
    (hsha : fd.getField "sha" = some (.str sval))
    (hsne : sval ≠ "")
    (hw : parse (net (contentsWriteUrl env) "PUT"
        (some (putRequestBody c sval env))).text = some w)
    (hwnn : w ≠ Json.null)
    (hpok : 200 ≤ (net (contentsWriteUrl env) "PUT"
          (some (putRequestBody c sval env))).status ∧
        (net (contentsWriteUrl env) "PUT"
          (some (putRequestBody c sval env))).status < 300) :
    handleUpdate parse net req env =
      (.ok (jsonResponse (.obj
        (("message", .str "Update triggered") :: claimCommitField w)) 200),
       [.jsonParseEv req.body,
        .netCall (contentsReadUrl env) "GET" none,
        .netCall (contentsWriteUrl env) "PUT" (some (putRequestBody c sval env))]) ∧
    ((handleUpdate parse net req env).2).countP Event.isPut = 1 := by
  obtain ⟨g1, g2⟩ := hgok
  obtain ⟨p1, p2⟩ := hpok
  obtain ⟨co, hco, hcf⟩ := optChain2_commit_spec w hwnn
  obtain ⟨bs, rfl⟩ := getField_some_obj b "content" (.str c) hc
  obtain ⟨fs, rfl⟩ := getField_some_obj fd "sha" (.str sval) hsha
  have hc' : Json.lookupField bs "content" = some (.str c) := hc
  have hsha' : Json.lookupField fs "sha" = some (.str sval) := hsha
  have hsp : safeParseRequestJSON parse req =
      (.ok (.obj bs), [.jsonParseEv req.body]) := by
    simp [safeParseRequestJSON, hp]
  have hcp : jsGetProp (Json.obj bs) "content" = .ok (some (Json.str c)) := by
    simp [jsGetProp, hc']
  have hct : jsTruthyOpt (some (Json.str c)) = true := by
    simp [jsTruthyOpt, Json.jsTruthy, hcne]
  have hGet : safeGitHubRequest parse net (contentsReadUrl env) env "GET" none =
      (.ok (.obj fs), [.netCall (contentsReadUrl env) "GET" none]) := by
    simp [safeGitHubRequest, hfd, g1, g2]
  have hshp : jsGetProp (Json.obj fs) "sha" = .ok (some (Json.str sval)) := by
    simp [jsGetProp, hsha']
  have hshat : jsTruthyOpt (some (Json.str sval)) = true := by
    simp [jsTruthyOpt, Json.jsTruthy, hsne]
  have hbodyeq : stringify (Json.obj
      (("message", Json.str "auto update images.txt") ::
       ("content", Json.str (base64Encode (jsToStringOpt (some (Json.str c))))) ::
       (mkField "sha" (some (Json.str sval)) ++ [("branch", Json.str env.BRANCH)]))) =
      putRequestBody c sval env := by
    simp [jsToStringOpt, Json.jsToString, mkField, putRequestBody]
  have hPut : safeGitHubRequest parse net (contentsWriteUrl env) env "PUT"
      (some (putRequestBody c sval env)) =
      (.ok w, [.netCall (contentsWriteUrl env) "PUT"
        (some (putRequestBody c sval env))]) := by
    simp [safeGitHubRequest, hw, p1, p2]
  have hmain : handleUpdate parse net req env =
      (.ok (jsonResponse (.obj
        (("message", .str "Update triggered") :: claimCommitField w)) 200),
       [.jsonParseEv req.body,
        .netCall (contentsReadUrl env) "GET" none,
        .netCall (contentsWriteUrl env) "PUT" (some (putRequestBody c sval env))]) := by
    simp [handleUpdate, hm, hsp, hcp, hct, hGet, hshp, hshat, hbodyeq, hPut,
      hco, hcf]
  exact ⟨hmain, by rw [hmain]; rfl⟩

/-- Closed instance of C3: content "hello", a read returning sha "abc", a
write echoing commit sha "def" — the flow answers
message "Update triggered" with commit "def", after exactly one PUT. -/
theorem C3_update_success_put_once_witness :
    handleUpdate
      (fun t => if t = "RB" then some (.obj [("content", .str "hello")])
        else if t = "G" then some (.obj [("sha", .str "abc")])
        else if t = "U" then some (.obj [("commit", .obj [("sha", .str "def")])])
        else none)
      (fun _ m _ => if m = "GET" then ⟨200, "G"⟩ else ⟨200, "U"⟩)
      ⟨"POST", none, "RB"⟩ ⟨"o", "r", "f", "main", "t", "sec"⟩ =
      (.ok (jsonResponse (.obj
        (("message", .str "Update triggered") ::
          claimCommitField (.obj [("commit", .obj [("sha", .str "def")])]))) 200),
       [.jsonParseEv "RB",
        .netCall (contentsReadUrl ⟨"o", "r", "f", "main", "t", "sec"⟩) "GET" none,
        .netCall (contentsWriteUrl ⟨"o", "r", "f", "main", "t", "sec"⟩) "PUT"
          (some (putRequestBody "hello" "abc" ⟨"o", "r", "f", "main", "t", "sec"⟩))]) ∧
    claimCommitField (.obj [("commit", .obj [("sha", .str "def")])]) =
      [("commit", .str "def")] :=
  ⟨(C3_update_success_put_once
      (fun t => if t = "RB" then some (.obj [("content", .str "hello")])
        else if t = "G" then some (.obj [("sha", .str "abc")])
        else if t = "U" then some (.obj [("commit", .obj [("sha", .str "def")])])
        else none)
      (fun _ m _ => if m = "GET" then ⟨200, "G"⟩ else ⟨200, "U"⟩)
      ⟨"POST", none, "RB"⟩ ⟨"o", "r", "f", "main", "t", "sec"⟩
      "hello" "abc"
      (.obj [("content", .str "hello")]) (.obj [("sha", .str "abc")])
      (.obj [("commit", .obj [("sha", .str "def")])])
      rfl rfl rfl (by decide) rfl (by decide) rfl (by decide) rfl
      (fun h => Json.noConfusion h) (by decide)).1,
   by simp [claimCommitField, Json.getField, Json.lookupField]⟩

/-- The alphabet index is a left inverse of the alphabet rendering. -/
lemma b64Sextet_b64Char : ∀ n, n < 64 → b64Sextet (b64Char n) = some n := by
  decide

/-- No alphabet character is the padding character. -/
lemma b64Char_ne_pad : ∀ n, n < 64 → b64Char n ≠ '=' := by
  decide

/-- Base64 decoding inverts base64 encoding on byte lists. -/
lemma b64_roundtrip (bs : List Nat) (h : ∀ b ∈ bs, b < 256) :
    b64DecodeList (b64EncodeList bs) = some bs := by
  induction bs using b64EncodeList.induct with
  | case1 => rfl
  | case2 a =>
    have ha : a < 256 := h a (by simp)
    have h1 := b64Sextet_b64Char (a / 4) (by omega)
    have h2 := b64Sextet_b64Char ((a % 4) * 16) (by omega)
    simp only [b64EncodeList, b64DecodeList, h1, h2, if_pos rfl]
    simp only [and_self, reduceIte, Option.some.injEq, List.cons.injEq, and_true]
    omega
  | case3 a b =>
    have ha : a < 256 := h a (by simp)
    have hb : b < 256 := h b (by simp)
    have h1 := b64Sextet_b64Char (a / 4) (by omega)
    have h2 := b64Sextet_b64Char ((a % 4) * 16 + b / 16) (by omega)
    have h3 := b64Sextet_b64Char ((b % 16) * 4) (by omega)
    have n3 := b64Char_ne_pad ((b % 16) * 4) (by omega)
    simp only [b64EncodeList, b64DecodeList, h1, h2, h3, if_neg n3, if_pos rfl]
    simp only [reduceIte, Option.some.injEq, List.cons.injEq, and_true]
    constructor <;> omega
  | case4 a b c rest ih =>
    have ha : a < 256 := h a (by simp)
    have hb : b < 256 := h b (by simp)
    have hc : c < 256 := h c (by simp)
    have hrest : ∀ x ∈ rest, x < 256 := fun x hx => h x (by simp [hx])
    have h1 := b64Sextet_b64Char (a / 4) (by omega)
    have h2 := b64Sextet_b64Char ((a % 4) * 16 + b / 16) (by omega)
    have h3 := b64Sextet_b64Char ((b % 16) * 4 + c / 64) (by omega)
    have h4 := b64Sextet_b64Char (c % 64) (by omega)
    have n3 := b64Char_ne_pad ((b % 16) * 4 + c / 64) (by omega)
    have n4 := b64Char_ne_pad (c % 64) (by omega)
    simp only [b64EncodeList, b64DecodeList, h1, h2, h3, h4, if_neg n3, if_neg n4]
    rw [ih hrest]
    simp only [Option.map_some', Option.some.injEq, List.cons.injEq, and_true]
    refine ⟨by omega, by omega, by omega⟩

/-- Every Lean character's code point is below 0x110000. -/
lemma char_code_lt (c : Char) : c.toNat < 1114112 := by
  have h := c.valid
  unfold UInt32.isValidChar Nat.isValidChar at h
  show c.val.toNat < 1114112
  rcases h with h | ⟨h1, h2⟩ <;> omega

/-- UTF-8 encoding produces byte values. -/
lemma utf8EncodeCode_bytes_lt (n : Nat) (hn : n < 1114112) :
    ∀ b ∈ utf8EncodeCode n, b < 256 := by
  intro b hb
  unfold utf8EncodeCode at hb
  split_ifs at hb with h1 h2 h3
  · simp at hb; omega
  · simp at hb; rcases hb with rfl | rfl <;> omega
  · simp at hb; rcases hb with rfl | rfl | rfl <;> omega
  · simp at hb; rcases hb with rfl | rfl | rfl | rfl <;> omega

/-- UTF-8 encoding of a code point is never empty. -/
lemma utf8EncodeCode_ne_nil (n : Nat) : utf8EncodeCode n ≠ [] := by
  unfold utf8EncodeCode
  split_ifs <;> simp

/-- Decoding one code point from a UTF-8 encoded code point prepended to
further bytes yields that code point and the remaining bytes. -/
lemma utf8DecodeOne_encode (n : Nat) (hn : n < 1114112) (l : List Nat) :
    utf8DecodeOne (utf8EncodeCode n ++ l) = some (n, l) := by
  unfold utf8EncodeCode
  split_ifs with h1 h2 h3
  · simp only [List.cons_append, List.nil_append, utf8DecodeOne, if_pos h1]
  · have c1 : ¬(192 + n / 64 < 128) := by omega
    have c2 : ¬(192 + n / 64 < 192) := by omega
    have c3 : 192 + n / 64 < 224 := by omega
    have c4 : 128 ≤ 128 + n % 64 ∧ 128 + n % 64 < 192 := by omega
    have cv : (192 + n / 64 - 192) * 64 + (128 + n % 64 - 128) = n := by omega
    simp only [List.cons_append, List.nil_append, utf8DecodeOne,
      if_neg c1, if_neg c2, if_pos c3, utf8Take1, if_pos c4, cv]
  · have c1 : ¬(224 + n / 4096 < 128) := by omega
    have c2 : ¬(224 + n / 4096 < 192) := by omega
    have c3 : ¬(224 + n / 4096 < 224) := by omega
    have c4 : 224 + n / 4096 < 240 := by omega
    have c5 : (128 ≤ 128 + n / 64 % 64 ∧ 128 + n / 64 % 64 < 192) ∧
        (128 ≤ 128 + n % 64 ∧ 128 + n % 64 < 192) := by omega
    have cv : (224 + n / 4096 - 224) * 4096 + (128 + n / 64 % 64 - 128) * 64 +
        (128 + n % 64 - 128) = n := by omega
    simp only [List.cons_append, List.nil_append, utf8DecodeOne,
      if_neg c1, if_neg c2, if_neg c3, if_pos c4, utf8Take2, if_pos c5, cv]
  · have c1 : ¬(240 + n / 262144 < 128) := by omega
    have c2 : ¬(240 + n / 262144 < 192) := by omega
    have c3 : ¬(240 + n / 262144 < 224) := by omega
    have c4 : ¬(240 + n / 262144 < 240) := by omega
    have c5 : 240 + n / 262144 < 248 := by omega
    have c6 : (128 ≤ 128 + n / 4096 % 64 ∧ 128 + n / 4096 % 64 < 192) ∧
        (128 ≤ 128 + n / 64 % 64 ∧ 128 + n / 64 % 64 < 192) ∧
        (128 ≤ 128 + n % 64 ∧ 128 + n % 64 < 192) := by omega
    have cv : (240 + n / 262144 - 240) * 262144 + (128 + n / 4096 % 64 - 128) * 4096 +
        (128 + n / 64 % 64 - 128) * 64 + (128 + n % 64 - 128) = n := by omega
    simp only [List.cons_append, List.nil_append, utf8DecodeOne,
      if_neg c1, if_neg c2, if_neg c3, if_neg c4, if_pos c5, utf8Take3,
      if_pos c6, cv]

/-- The decode loop inverts the concatenated encodings of a character
list, given fuel at least the number of bytes. -/
lemma utf8DecodeLoop_encode (cs : List Char) : ∀ fuel : Nat,
    ((cs.map fun c => utf8EncodeCode c.toNat).flatten).length ≤ fuel →
    utf8DecodeLoop fuel ((cs.map fun c => utf8EncodeCode c.toNat).flatten) =
      some (cs.map Char.toNat) := by
  induction cs with
  | nil => intro fuel _; simp [utf8DecodeLoop]
  | cons c cs ih =>
    intro fuel hf
    simp only [List.map_cons, List.flatten_cons] at hf ⊢
    obtain ⟨b, bs, hbs⟩ : ∃ b bs, utf8EncodeCode c.toNat = b :: bs := by
      cases he : utf8EncodeCode c.toNat with
      | nil => exact absurd he (utf8EncodeCode_ne_nil _)
      | cons b bs => exact ⟨b, bs, rfl⟩
    cases fuel with
    | zero =>
      rw [hbs] at hf
      simp at hf
    | succ f =>
      rw [hbs, List.cons_append]
      simp only [utf8DecodeLoop]
      rw [← List.cons_append, ← hbs,
        utf8DecodeOne_encode c.toNat (char_code_lt c)]
      have hlen : ((cs.map fun c => utf8EncodeCode c.toNat).flatten).length ≤ f := by
        rw [hbs] at hf
        simp only [List.cons_append, List.length_cons, List.length_append] at hf
        omega
      show (utf8DecodeLoop f ((cs.map fun c => utf8EncodeCode c.toNat).flatten)).map
        (c.toNat :: ·) = some (c.toNat :: cs.map Char.toNat)
      rw [ih f hlen]
      rfl

/-- Decoding the concatenated UTF-8 encodings of a character list yields
the characters' code points. -/
lemma utf8_roundtrip (cs : List Char) :
    utf8DecodeCodes ((cs.map fun c => utf8EncodeCode c.toNat).flatten) =
      some (cs.map Char.toNat) :=
  utf8DecodeLoop_encode cs _ le_rfl

/-- All bytes of a string's UTF-8 rendering are byte values. -/
lemma utf8Bytes_lt (s : String) : ∀ b ∈ utf8Bytes s, b < 256 := by
  intro b hb
  unfold utf8Bytes at hb
  simp only [List.mem_flatten] at hb
  obtain ⟨l, hl, hbl⟩ := hb
  simp only [List.mem_map] at hl
  obtain ⟨c, -, rfl⟩ := hl
  exact utf8EncodeCode_bytes_lt c.toNat (char_code_lt c) b hbl

/-- C6: decoding the base64 string produced by base64Encode as UTF-8
yields exactly the original string, over the full Unicode range including
multi-byte sequences. -/
theorem C6_base64_utf8_roundtrip (s : String) :
    ((b64DecodeList (base64Encode s).data).bind utf8DecodeCodes).map
      (fun codes => String.mk (codes.map Char.ofNat)) = some s := by
  have h1 : (base64Encode s).data = b64EncodeList (utf8Bytes s) := rfl
  rw [h1, b64_roundtrip _ (utf8Bytes_lt s)]
  show ((utf8DecodeCodes (utf8Bytes s)).map
    (fun codes => String.mk (codes.map Char.ofNat))) = some s
  rw [show utf8Bytes s = (s.data.map fun c => utf8EncodeCode c.toNat).flatten from rfl]
  rw [utf8_roundtrip]
  simp only [Option.map_some', Option.some.injEq, List.map_map]
  have hcomp : (Char.ofNat ∘ Char.toNat) = id := funext fun c => Char.ofNat_toNat c
  rw [hcomp, List.map_id]
